import Mathlib

/-!
Shallow embedding of the precompile subsystem of the morph-l2/sp1 zkVM prover:
trace builders, padding, inclusion tests and constraint evaluators for the
Bn254MulAdd, MemCopy32, Bn254ScalarMac and Poseidon chips, translated from
`crates/core/machine/src/syscall/...`.

Trace cells live in the 32-bit prime field used by the core prover (BabyBear),
modelled as `ZMod babyBear`.  Multi-word big integers handled by the field
operation witness generator are modelled as `ℕ`, with explicit `% p` where the
source reduces modulo the Bn254 scalar prime.
-/

namespace SP1

set_option maxRecDepth 40000

/-- The BabyBear prime, the 32-bit field the core machine commits traces over. -/
def babyBear : ℕ := 2013265921

/-- Trace field elements (`F: PrimeField32` in the source). -/
abbrev F : Type := ZMod babyBear

/-- The Bn254 scalar field modulus (`Bn254ScalarField::MODULUS`). -/
def bn254ScalarModulus : ℕ :=
  21888242871839275222246405745257275088548364400416034343698204186575808495617

/-- The field operations the chips in scope use (`FieldOperation`); the source
enum also has `Sub` and `Div`, which no chip under verification invokes. -/
inductive FieldOperation where
  | Add
  | Mul
deriving DecidableEq, Repr

/-- Byte `i` of the little-endian byte decomposition of `n`. -/
def natByte (n : ℕ) (i : ℕ) : ℕ := (n / 256 ^ i) % 256

/-- Little-endian value of eight 32-bit words, as produced by
`BigUint::from_bytes_le(words_to_bytes_le(w))`. -/
def wordsToNat (w : Fin 8 → ℕ) : ℕ :=
  w 0 + 2 ^ 32 * w 1 + 2 ^ 64 * w 2 + 2 ^ 96 * w 3 +
  2 ^ 128 * w 4 + 2 ^ 160 * w 5 + 2 ^ 192 * w 6 + 2 ^ 224 * w 7

/-- Modelled from the spec: the arithmetic witness sub-columns of
`FieldOpCols<T, Bn254ScalarField>` (the field operation evaluator of §4.2,
whose source lives outside the provided tree).  It carries the 32 little-endian
byte limbs of the reduced result `c` and the integer quotient `q` of the
reduction `a op b = p * q + c`; the carry limbs and byte-range-check requests
it also spawns are not needed by any claim and are left out. -/
structure FieldOpCols where
  result : Fin 32 → F
  q : ℕ
deriving DecidableEq

/-- Modelled from the spec: `FieldOpCols::populate` computes
`c = (a op b) mod p` over the Bn254 scalar field, fills the result limbs, and
records the reduction quotient `q = (a op b) / p`; it returns the reduced
value, which the caller feeds into the next operation.  On zero operands the
quotient is `0` and no division by an operand ever occurs. -/
def FieldOpCols.populate (a b : ℕ) (op : FieldOperation) : FieldOpCols × ℕ :=
  let v : ℕ := match op with
    | .Add => a + b
    | .Mul => a * b
  let c : ℕ := v % bn254ScalarModulus
  (⟨fun i => ((natByte c i : ℕ) : F), v / bn254ScalarModulus⟩, c)

/-- The all-zero arithmetic witness a freshly zeroed row starts from. -/
def FieldOpCols.zero : FieldOpCols := ⟨fun _ => 0, 0⟩

/-- A read record of the memory access journal (§3): address, value read and
timestamp. -/
structure MemoryReadRecord where
  addr : ℕ
  value : ℕ
  timestamp : ℕ
deriving DecidableEq

/-- A write record of the memory access journal (§3): address, prior value,
value written and timestamp. -/
structure MemoryWriteRecord where
  addr : ℕ
  value : ℕ
  prevValue : ℕ
  timestamp : ℕ
deriving DecidableEq

/-- Modelled from the spec: `MemoryReadCols`, the per-word memory sub-columns
of a read access; `value` holds the four little-endian byte limbs of the word
read (the timestamp-comparison helper columns are unused by the claims). -/
structure MemoryReadCols where
  value : Fin 4 → F
deriving DecidableEq

/-- Modelled from the spec: `MemoryWriteCols`; `value` holds the byte limbs of
the word written, `prevValue` those of the word it replaced. -/
structure MemoryWriteCols where
  value : Fin 4 → F
  prevValue : Fin 4 → F
deriving DecidableEq

/-- Modelled from the spec: `MemoryReadCols::populate` copies the journaled
word into the columns, byte by byte. -/
def MemoryReadCols.populate (r : MemoryReadRecord) : MemoryReadCols :=
  ⟨fun i => ((natByte r.value i : ℕ) : F)⟩

/-- Modelled from the spec: `MemoryWriteCols::populate`. -/
def MemoryWriteCols.populate (r : MemoryWriteRecord) : MemoryWriteCols :=
  ⟨fun i => ((natByte r.value i : ℕ) : F), fun i => ((natByte r.prevValue i : ℕ) : F)⟩

/-- The all-zero read columns of a freshly zeroed row. -/
def MemoryReadCols.zero : MemoryReadCols := ⟨fun _ => 0⟩

/-- The all-zero write columns of a freshly zeroed row. -/
def MemoryWriteCols.zero : MemoryWriteCols := ⟨fun _ => 0, fun _ => 0⟩

/-- Fuel-driven halving recursion computing the exponent of the least power
of two at or above `n` (`n` itself is enough fuel). -/
def log2CeilAux : ℕ → ℕ → ℕ
  | 0, _ => 0
  | fuel + 1, n => if n ≤ 1 then 0 else log2CeilAux fuel ((n + 1) / 2) + 1

/-- The exponent of `usize::next_power_of_two`: least `k` with `n ≤ 2^k`
(`0` for `n ≤ 1`, matching Rust's `0.next_power_of_two() == 1`). -/
def log2Ceil (n : ℕ) : ℕ := log2CeilAux n n

/-- Modelled from the spec: `next_power_of_two(n, fixed)` from the trace
builder utilities — the padded height is the next power of two of the genuine
row count, or `2^l` when the shard's shape hint fixes the height (the source
asserts `n ≤ 2^l` and aborts otherwise, which the `Option` result of
`padRowsFixed` reflects). -/
def nextPowerOfTwoModel (n : ℕ) : Option ℕ → ℕ
  | none => 2 ^ log2Ceil n
  | some l => 2 ^ l

/-- Modelled from the spec: `pad_rows_fixed` appends copies of the canonical
dummy row until the height reaches `nextPowerOfTwoModel`; `none` models the
source's abort when a fixed height is smaller than the genuine row count. -/
def padRowsFixed {R : Type} (rows : List R) (dummy : R) (fixedLog2 : Option ℕ) :
    Option (List R) :=
  let target := nextPowerOfTwoModel rows.length fixedLog2
  if rows.length ≤ target then
    some (rows ++ List.replicate (target - rows.length) dummy)
  else
    none

/-- A `Bn254MulAddEvent` (executor side): shard, clock, the two pointers, the
three 8-word operands (`x` is the accumulator that is written back) and the
ordered memory records. -/
structure Bn254MulAddEvent where
  shard : ℕ
  clk : ℕ
  x_ptr : ℕ
  x : Fin 8 → ℕ
  y_ptr : ℕ
  a : Fin 8 → ℕ
  b : Fin 8 → ℕ
  x_memory_records : Fin 8 → MemoryWriteRecord
  a_memory_records : Fin 8 → MemoryReadRecord
  b_memory_records : Fin 8 → MemoryReadRecord
deriving DecidableEq

/-- A `MemCopyEvent` (executor side). -/
structure MemCopyEvent where
  shard : ℕ
  clk : ℕ
  src_ptr : ℕ
  dst_ptr : ℕ
  read_records : Fin 8 → MemoryReadRecord
  write_records : Fin 8 → MemoryWriteRecord
deriving DecidableEq

/-- Modelled from the spec: one operand group of a `Bn254ScalarArithEvent`
whose pointer words are read and whose prior value is the accumulator
(`event.arg1` in `mac.rs`; the event constructor lives outside the provided
tree).  `prevWords` is what `prev_value_as_biguint` decodes. -/
structure ScalarArithWriteArg where
  ptr : ℕ
  prevWords : Fin 8 → ℕ
  memory_records : Fin 8 → MemoryWriteRecord
deriving DecidableEq

/-- Modelled from the spec: the pointer-pair operand group (`event.arg2`),
two words read at `y_ptr`. -/
structure ScalarArithPtrArg where
  ptr : ℕ
  memory_records : Fin 2 → MemoryReadRecord
deriving DecidableEq

/-- Modelled from the spec: a read operand group (`event.a` / `event.b`,
always present for the MulAdd operation, so the source's `unwrap` succeeds);
`words` is what `value_as_biguint` decodes. -/
structure ScalarArithReadArg where
  words : Fin 8 → ℕ
  memory_records : Fin 8 → MemoryReadRecord
deriving DecidableEq

/-- The `Bn254ScalarMac` precompile event, with the fields `mac.rs` consumes. -/
structure Bn254ScalarMacEvent where
  shard : ℕ
  clk : ℕ
  arg1 : ScalarArithWriteArg
  arg2 : ScalarArithPtrArg
  a : ScalarArithReadArg
  b : ScalarArithReadArg
deriving DecidableEq

/-- A `PoseidonEvent` with the fields the `MachineAir` trace generator in
`Poseidon-bn254/mod.rs` consumes: shard, clock and the three input words,
already field elements there. -/
structure PoseidonEvent where
  shard : ℕ
  clk : ℕ
  input : Fin 3 → F
deriving DecidableEq

/-- Modelled from the spec: the shard's shape hint (§3) — which chips it
declares included and, per chip name, a fixed log2 trace height controlling
padding. -/
structure CoreShape where
  includedChips : List String
  fixedLog2 : List (String × ℕ)
deriving DecidableEq

/-- Modelled from the spec: `shape.included(chip)` tests whether the chip's
name is declared by the shape. -/
def CoreShape.isIncluded (s : CoreShape) (chipName : String) : Bool :=
  s.includedChips.contains chipName

/-- Modelled from the spec: `shape.fixedLog2Height(chip)`. -/
def CoreShape.fixedLog2Height (s : CoreShape) (chipName : String) : Option ℕ :=
  s.fixedLog2.lookup chipName

/-- The shard `ExecutionRecord`, restricted to the per-kind event sequences
the four chips in scope consume, plus the optional shape hint. -/
structure ExecutionRecord where
  bn254MulAddEvents : List Bn254MulAddEvent
  memCopy32Events : List MemCopyEvent
  bn254ScalarMacEvents : List Bn254ScalarMacEvent
  poseidonEvents : List PoseidonEvent
  shape : Option CoreShape
deriving DecidableEq

/-- `input.fixed_log2_rows(self)`: the fixed height for a chip, read off the
shape hint when present. -/
def ExecutionRecord.fixedLog2Rows (r : ExecutionRecord) (chipName : String) : Option ℕ :=
  r.shape.bind fun s => s.fixedLog2Height chipName

/-- The trace columns of the `Bn254MulAdd` chip (`Bn254MulAddCols`). -/
structure Bn254MulAddCols where
  shard : F
  clk : F
  nonce : F
  x_ptr : F
  y_ptr : F
  x_memory : Fin 8 → MemoryWriteCols
  a_memory : Fin 8 → MemoryReadCols
  b_memory : Fin 8 → MemoryReadCols
  a_mul_b : FieldOpCols
  add_eval : FieldOpCols
  is_real : F
deriving DecidableEq

/-- The genuine row `Bn254MulAddChip::generate_trace` materializes for one
event: decode the three operands little-endian, set the scalar columns, copy
the memory records, then populate `a_mul_b = a*b` and
`add_eval = x + (a*b)` over the Bn254 scalar field. -/
def bn254MulAddEventRow (e : Bn254MulAddEvent) : Bn254MulAddCols :=
  let x := wordsToNat e.x
  let a := wordsToNat e.a
  let b := wordsToNat e.b
  let mul := FieldOpCols.populate a b .Mul
  let add := FieldOpCols.populate x mul.2 .Add
  { shard := (e.shard : F)
    clk := (e.clk : F)
    nonce := 0
    x_ptr := (e.x_ptr : F)
    y_ptr := (e.y_ptr : F)
    x_memory := fun i => MemoryWriteCols.populate (e.x_memory_records i)
    a_memory := fun i => MemoryReadCols.populate (e.a_memory_records i)
    b_memory := fun i => MemoryReadCols.populate (e.b_memory_records i)
    a_mul_b := mul.1
    add_eval := add.1
    is_real := 1 }

/-- The canonical dummy row of the `Bn254MulAdd` padding closure: a zeroed row
whose arithmetic witnesses are populated for the zero-operand pair. -/
def bn254MulAddPadRow : Bn254MulAddCols :=
  { shard := 0
    clk := 0
    nonce := 0
    x_ptr := 0
    y_ptr := 0
    x_memory := fun _ => MemoryWriteCols.zero
    a_memory := fun _ => MemoryReadCols.zero
    b_memory := fun _ => MemoryReadCols.zero
    a_mul_b := (FieldOpCols.populate 0 0 .Mul).1
    add_eval := (FieldOpCols.populate 0 0 .Add).1
    is_real := 0 }

/-- The nonce post-pass shared by the trace builders: row `i` of the padded
trace gets `nonce = i` (`cols.nonce = F::from_canonical_usize(i)`). -/
def writeNonces (rows : List Bn254MulAddCols) (start : ℕ) : List Bn254MulAddCols :=
  match rows with
  | [] => []
  | r :: rs => { r with nonce := (start : F) } :: writeNonces rs (start + 1)

/-- `Bn254MulAddChip::generate_trace`: one row per event in insertion order
(the source maps over `chunks(1)` and re-concatenates in order), padded to a
power of two with the canonical dummy row, then the nonce column is written. -/
def bn254MulAddGenerateTrace (input : ExecutionRecord) : Option (List Bn254MulAddCols) :=
  let rows := input.bn254MulAddEvents.map bn254MulAddEventRow
  (padRowsFixed rows bn254MulAddPadRow (input.fixedLog2Rows "Bn254MulAdd")).map
    fun padded => writeNonces padded 0

/-- `Bn254MulAddChip::included`: defer to the shape when one is present,
otherwise test whether the shard has any `BN254_MULADD` event. -/
def bn254MulAddIncluded (shard : ExecutionRecord) : Bool :=
  match shard.shape with
  | some s => s.isIncluded "Bn254MulAdd"
  | none => !shard.bn254MulAddEvents.isEmpty

/-- The trace columns of the memory-copy chip at 8 words (`MemCopyCols<T, U8>`,
i.e. `MemCopy32Chip`). -/
structure MemCopyCols where
  is_real : F
  shard : F
  channel : F
  clk : F
  src_ptr : F
  dst_ptr : F
  src_access : Fin 8 → MemoryReadCols
  dst_access : Fin 8 → MemoryWriteCols
deriving DecidableEq

/-- The genuine row `MemCopyChip::generate_trace` materializes for one event. -/
def memCopyEventRow (e : MemCopyEvent) : MemCopyCols :=
  { is_real := 1
    shard := (e.shard : F)
    channel := 0
    clk := (e.clk : F)
    src_ptr := (e.src_ptr : F)
    dst_ptr := (e.dst_ptr : F)
    src_access := fun i => MemoryReadCols.populate (e.read_records i)
    dst_access := fun i => MemoryWriteCols.populate (e.write_records i) }

/-- The dummy padding row of the memory-copy chip: all zeros
(`|| vec![F::zero(); Self::NUM_COLS]`). -/
def memCopyPadRow : MemCopyCols :=
  { is_real := 0
    shard := 0
    channel := 0
    clk := 0
    src_ptr := 0
    dst_ptr := 0
    src_access := fun _ => MemoryReadCols.zero
    dst_access := fun _ => MemoryWriteCols.zero }

/-- `MemCopyChip::<U8,U32>::generate_trace`: one row per `MEMCPY_32` event in
insertion order, padded to a power of two with the all-zero row.  This chip
has no nonce column and no nonce post-pass. -/
def memCopy32GenerateTrace (input : ExecutionRecord) : Option (List MemCopyCols) :=
  let rows := input.memCopy32Events.map memCopyEventRow
  padRowsFixed rows memCopyPadRow (input.fixedLog2Rows "MemCopy8Chip")

/-- `MemCopyChip::included` for the 8-word instance: the shard has a
`MEMCPY_32` event. -/
def memCopy32Included (shard : ExecutionRecord) : Bool :=
  !shard.memCopy32Events.isEmpty

/-- The trace columns of the `Bn254ScalarMac` chip (`Bn254ScalarMacCols`).
This chip has no nonce column. -/
structure Bn254ScalarMacCols where
  is_real : F
  shard : F
  channel : F
  clk : F
  arg1_ptr : F
  arg2_ptr : F
  arg1_access : Fin 8 → MemoryWriteCols
  arg2_access : Fin 2 → MemoryReadCols
  a_access : Fin 8 → MemoryReadCols
  b_access : Fin 8 → MemoryReadCols
  mul_eval : FieldOpCols
  add_eval : FieldOpCols
deriving DecidableEq

/-- The genuine row `Bn254ScalarMacChip::generate_trace` materializes for one
event: `mul_eval = a*b`, `add_eval = arg1 + (a*b)` over the Bn254 scalar
field, plus the four memory access groups. -/
def bn254ScalarMacEventRow (e : Bn254ScalarMacEvent) : Bn254ScalarMacCols :=
  let arg1 := wordsToNat e.arg1.prevWords
  let a := wordsToNat e.a.words
  let b := wordsToNat e.b.words
  let mul := FieldOpCols.populate a b .Mul
  let add := FieldOpCols.populate arg1 mul.2 .Add
  { is_real := 1
    shard := (e.shard : F)
    channel := 0
    clk := (e.clk : F)
    arg1_ptr := (e.arg1.ptr : F)
    arg2_ptr := (e.arg2.ptr : F)
    arg1_access := fun i => MemoryWriteCols.populate (e.arg1.memory_records i)
    arg2_access := fun i => MemoryReadCols.populate (e.arg2.memory_records i)
    a_access := fun i => MemoryReadCols.populate (e.a.memory_records i)
    b_access := fun i => MemoryReadCols.populate (e.b.memory_records i)
    mul_eval := mul.1
    add_eval := add.1 }

/-- The dummy padding row of the `Bn254ScalarMac` chip: zeroed except the two
arithmetic witnesses, populated for the zero-operand pair. -/
def bn254ScalarMacPadRow : Bn254ScalarMacCols :=
  { is_real := 0
    shard := 0
    channel := 0
    clk := 0
    arg1_ptr := 0
    arg2_ptr := 0
    arg1_access := fun _ => MemoryWriteCols.zero
    arg2_access := fun _ => MemoryReadCols.zero
    a_access := fun _ => MemoryReadCols.zero
    b_access := fun _ => MemoryReadCols.zero
    mul_eval := (FieldOpCols.populate 0 0 .Mul).1
    add_eval := (FieldOpCols.populate 0 0 .Add).1 }

/-- `Bn254ScalarMacChip::generate_trace`. -/
def bn254ScalarMacGenerateTrace (input : ExecutionRecord) :
    Option (List Bn254ScalarMacCols) :=
  let rows := input.bn254ScalarMacEvents.map bn254ScalarMacEventRow
  padRowsFixed rows bn254ScalarMacPadRow (input.fixedLog2Rows "Bn254ScalarMac")

/-- `Bn254ScalarMacChip::included`. -/
def bn254ScalarMacIncluded (shard : ExecutionRecord) : Bool :=
  !shard.bn254ScalarMacEvents.isEmpty

/-- `WIDTH`: the Poseidon state width. -/
def WIDTH : ℕ := 3

/-- `FULL_ROUNDS`. -/
def FULL_ROUNDS : ℕ := 8

/-- `PARTIAL_ROUNDS`. -/
def PARTIAL_ROUNDS : ℕ := 57

/-- `RATE`: how many input words the `MachineAir` trace generator absorbs. -/
def RATE : ℕ := 2

/-- `POSEIDON_MDS`, the fixed 3times3 mixing matrix. -/
def POSEIDON_MDS : Fin 3 → Fin 3 → ℕ :=
  fun i j =>
    [[0x2c6dad64b519f5f6, 0x88d797e2c3587014, 0xa07f783a0d634fb9],
     [0x2d80f016b6755e0c, 0x7433dfee8f82b561, 0x8c7131f3c6a437cb],
     [0x1c6046d8df5c8e93, 0xa7e6bdf9c9ebde0e, 0x980d68b4f6972ad4]].getD i [] |>.getD j 0

/-- `POSEIDON_ROUND_CONSTANTS`, one triple per full round. -/
def POSEIDON_ROUND_CONSTANTS : ℕ → Fin 3 → ℕ :=
  fun r j =>
    [[0x0ee9a592707cd727, 0x31f96748d6800b8e, 0x43a7a26a2c46f8c4],
     [0x273b2e90f3844677, 0x0b84c7f81b420ef3, 0x4b7814aa1c136336],
     [0x4f6b30dd1dda2c34, 0x34c082258a3a00d6, 0x0827694a053cf4b6],
     [0x36ae6793eb7d2052, 0x4e56b8d5f7defde4, 0x223e35558ed85f2b],
     [0x0c74c1e32def5e9f, 0x0b9e3f19c8e5d191, 0x4ff34451be63f050],
     [0x08b6e2d2c4467642, 0x366be28448dc562a, 0x4c43183de1739691],
     [0x37962c7e4222ff96, 0x1ba80d4be0c8090f, 0x4c43183de1739691],
     [0x2c6dad64b519f5f6, 0x88d797e2c3587014, 0xa07f783a0d634fb9]].getD r [] |>.getD j 0

/-- `POSEIDON_PARTIAL_CONSTANTS`, one constant per partial round. -/
def POSEIDON_PARTIAL_CONSTANTS : ℕ → ℕ :=
  fun r =>
    [0x18b075d6a5625b6e, 0x7e1d133dca7ac9d5, 0x9d80857ae9751e67,
     0x0ee9a592707cd727, 0x31f96748d6800b8e, 0x43a7a26a2c46f8c4,
     0x273b2e90f3844677, 0x0b84c7f81b420ef3, 0x4b7814aa1c136336,
     0x4f6b30dd1dda2c34, 0x34c082258a3a00d6, 0x0827694a053cf4b6,
     0x36ae6793eb7d2052, 0x4e56b8d5f7defde4, 0x223e35558ed85f2b,
     0x0c74c1e32def5e9f, 0x0b9e3f19c8e5d191, 0x4ff34451be63f050,
     0x08b6e2d2c4467642, 0x366be28448dc562a, 0x4c43183de1739691,
     0x37962c7e4222ff96, 0x1ba80d4be0c8090f, 0x4c43183de1739691,
     0x2c6dad64b519f5f6, 0x88d797e2c3587014, 0xa07f783a0d634fb9,
     0x2d80f016b6755e0c, 0x7433dfee8f82b561, 0x8c7131f3c6a437cb,
     0x1c6046d8df5c8e93, 0xa7e6bdf9c9ebde0e, 0x980d68b4f6972ad4,
     0x18b075d6a5625b6e, 0x7e1d133dca7ac9d5, 0x9d80857ae9751e67,
     0x0ee9a592707cd727, 0x31f96748d6800b8e, 0x43a7a26a2c46f8c4,
     0x273b2e90f3844677, 0x0b84c7f81b420ef3, 0x4b7814aa1c136336,
     0x4f6b30dd1dda2c34, 0x34c082258a3a00d6, 0x0827694a053cf4b6,
     0x36ae6793eb7d2052, 0x4e56b8d5f7defde4, 0x223e35558ed85f2b,
     0x0c74c1e32def5e9f, 0x0b9e3f19c8e5d191, 0x4ff34451be63f050,
     0x08b6e2d2c4467642, 0x366be28448dc562a, 0x4c43183de1739691,
     0x37962c7e4222ff96, 0x1ba80d4be0c8090f, 0x4c43183de1739691].getD r 0

/-- The trace columns of the `PoseidonChip` (`PoseidonCols`). -/
structure PoseidonCols where
  is_real : F
  shard : F
  clk : F
  nonce : F
  round_ctr : F
  is_full_round : F
  state : Fin 3 → F
  round_constants : Fin 3 → F
  ark_state : Fin 3 → F
  sbox_state : Fin 3 → F
  mix_state : Fin 3 → F
  next_state : Fin 3 → F
  is_memory_op : F
  is_arithmetic : F
  is_binary : F
  is_input_op : F
  is_output_op : F
  input_ptr : F
  output_ptr : F
  output_value : F
deriving DecidableEq

/-- The `x ↦ x^5` power map the S-box applies. -/
def sboxPow5 (x : F) : F :=
  let x2 := x * x
  let x4 := x2 * x2
  x4 * x

/-- `PoseidonCols::populate_trace_row` on a freshly zeroed row: round
constants are selected by round index (full rounds index the full table,
partial rounds put one partial constant in slot 0), then the ARK, S-box
(dense on full rounds, leading-word-only on partial rounds) and MDS layers
are computed; `next_state` copies the mix output; the memory/arithmetic flags
are set from the round index.  `nonce`, `input_ptr`, `output_ptr` and
`output_value` are not written and keep the row's zeros. -/
def populateTraceRow (shard clk round : ℕ) (state : Fin 3 → F) (isFull : Bool) :
    PoseidonCols :=
  let rc : Fin 3 → F :=
    if isFull then
      let rcIdx := if round < FULL_ROUNDS / 2 then round else round - PARTIAL_ROUNDS
      fun i => ((POSEIDON_ROUND_CONSTANTS rcIdx i : ℕ) : F)
    else
      fun i => if i = 0 then ((POSEIDON_PARTIAL_CONSTANTS (round - FULL_ROUNDS / 2) : ℕ) : F) else 0
  let ark : Fin 3 → F := fun i => state i + rc i
  let sbox : Fin 3 → F :=
    if isFull then fun i => sboxPow5 (ark i)
    else fun i => if i = 0 then sboxPow5 (ark 0) else ark i
  let mix : Fin 3 → F := fun i =>
    0 + sbox 0 * ((POSEIDON_MDS i 0 : ℕ) : F) + sbox 1 * ((POSEIDON_MDS i 1 : ℕ) : F) +
      sbox 2 * ((POSEIDON_MDS i 2 : ℕ) : F)
  { is_real := 1
    shard := (shard : F)
    clk := (clk : F)
    nonce := 0
    round_ctr := (round : F)
    is_full_round := if isFull then 1 else 0
    state := state
    round_constants := rc
    ark_state := ark
    sbox_state := sbox
    mix_state := mix
    next_state := mix
    is_memory_op := if round = 0 ∨ round = FULL_ROUNDS + PARTIAL_ROUNDS - 1 then 1 else 0
    is_arithmetic := 1
    is_binary := 0
    is_input_op := if round = 0 then 1 else 0
    is_output_op := if round = FULL_ROUNDS + PARTIAL_ROUNDS - 1 then 1 else 0
    input_ptr := 0
    output_ptr := 0
    output_value := 0 }

/-- The all-zero Poseidon row `populate_empty_row` produces for padding. -/
def poseidonEmptyRow : PoseidonCols :=
  { is_real := 0
    shard := 0
    clk := 0
    nonce := 0
    round_ctr := 0
    is_full_round := 0
    state := fun _ => 0
    round_constants := fun _ => 0
    ark_state := fun _ => 0
    sbox_state := fun _ => 0
    mix_state := fun _ => 0
    next_state := fun _ => 0
    is_memory_op := 0
    is_arithmetic := 0
    is_binary := 0
    is_input_op := 0
    is_output_op := 0
    input_ptr := 0
    output_ptr := 0
    output_value := 0 }

/-- The round-type predicate of the `MachineAir` trace generator:
`round < FULL_ROUNDS/2 || round >= FULL_ROUNDS/2 + PARTIAL_ROUNDS`. -/
def poseidonIsFullRound (round : ℕ) : Bool :=
  decide (round < FULL_ROUNDS / 2) || decide (round ≥ FULL_ROUNDS / 2 + PARTIAL_ROUNDS)

/-- The working state the `MachineAir` trace generator initializes for an
event: zeros, then `state[i] = event.input[i]` for `i < RATE` only. -/
def poseidonInitState (e : PoseidonEvent) : Fin 3 → F :=
  fun i => if (i : ℕ) < RATE then e.input i else 0

/-- The `FULL_ROUNDS + PARTIAL_ROUNDS` real rows the `MachineAir`
`generate_trace` in `Poseidon-bn254/mod.rs` pushes for one event.  The `state`
local is never reassigned inside the round loop, so every row is populated
from the same initial state. -/
def poseidonEventRows (e : PoseidonEvent) : List PoseidonCols :=
  (List.range (FULL_ROUNDS + PARTIAL_ROUNDS)).map fun round =>
    populateTraceRow e.shard e.clk round (poseidonInitState e) (poseidonIsFullRound round)

/-- The height the Poseidon padding loop
(`while !rows.len().is_power_of_two()`) stops at: the next power of two at or
above the genuine row count (and `1` for an empty shard, since Rust's
`is_power_of_two` is false at `0`). -/
def poseidonPaddedLen (n : ℕ) : ℕ := 2 ^ log2Ceil (max n 1)

/-- The `MachineAir` `PoseidonChip::generate_trace` of `mod.rs`: the per-event
row blocks in insertion order, padded to a power of two with empty rows.  No
nonce is ever written on this path. -/
def poseidonGenerateTrace (input : ExecutionRecord) : List PoseidonCols :=
  let rows := (input.poseidonEvents.map poseidonEventRows).flatten
  rows ++ List.replicate (poseidonPaddedLen rows.length - rows.length) poseidonEmptyRow

/-- `PoseidonChip::included`. -/
def poseidonIncluded (record : ExecutionRecord) : Bool :=
  !record.poseidonEvents.isEmpty

/-- Modelled from the spec: the numeric identifier of the `BN254_MULADD`
syscall (`SyscallCode` lives outside the provided tree; the claims only need
the identifiers to be fixed constants). -/
def BN254_MULADD_SYSCALL_ID : ℕ := 0x81

/-- Modelled from the spec: the numeric identifier of `MEMCPY_32`. -/
def MEMCPY_32_SYSCALL_ID : ℕ := 0x82

/-- Modelled from the spec: the numeric identifier of `BN254_SCALAR_MAC`. -/
def BN254_SCALAR_MAC_SYSCALL_ID : ℕ := 0x83

/-- One item a chip's constraint evaluator emits into the builder: a
polynomial asserted zero, a memory-access tuple handed to the
memory-consistency collaborator (`eval_memory_access_slice`), a syscall
interaction (`receive_syscall`), or a field-operation witness check handed to
`FieldOpCols::eval` (an external collaborator; the tuple records which limbs
it constrains). -/
inductive Emit where
  | assertZero (e : F)
  | memAccess (shard clk ptr : F) (values : List F) (is_real : F)
  | receiveSyscall (args : List F) (is_real : F)
  | fieldOpEval (lhs rhs result : List F) (op : FieldOperation) (is_real : F)
deriving DecidableEq

/-- Satisfaction of an emitted item: asserted polynomials must vanish;
collaborator interactions are enforced elsewhere (§4.4) and put no local
condition on the row. -/
def emitHolds : Emit → Prop
  | .assertZero e => e = 0
  | _ => True

instance (e : Emit) : Decidable (emitHolds e) := by
  unfold emitHolds
  cases e <;> infer_instance

/-- A row satisfies a constraint evaluator when every item it emitted holds. -/
def constraintsHold (es : List Emit) : Prop := ∀ e ∈ es, emitHolds e

instance (es : List Emit) : Decidable (constraintsHold es) :=
  inferInstanceAs (Decidable (∀ e ∈ es, emitHolds e))

/-- `limbs_from_access` over eight read words: 32 byte limbs, little-endian,
word-major. -/
def limbsFromReadAccess (m : Fin 8 → MemoryReadCols) : Fin 32 → F :=
  fun k => (m ⟨(k : ℕ) / 4, by omega⟩).value ⟨(k : ℕ) % 4, by omega⟩

/-- `value_as_limbs` over eight written words (the values written). -/
def valueLimbsOfWriteAccess (m : Fin 8 → MemoryWriteCols) : Fin 32 → F :=
  fun k => (m ⟨(k : ℕ) / 4, by omega⟩).value ⟨(k : ℕ) % 4, by omega⟩

/-- `limbs_from_prev_access` over eight written words (the prior values). -/
def prevLimbsOfWriteAccess (m : Fin 8 → MemoryWriteCols) : Fin 32 → F :=
  fun k => (m ⟨(k : ℕ) / 4, by omega⟩).prevValue ⟨(k : ℕ) % 4, by omega⟩

/-- `Bn254MulAddChip::eval` on a pair of adjacent rows; `firstRowSel` and
`transitionSel` are the row-position selectors of `when_first_row` /
`when_transition`.  In source order: the nonce constraints, the two field
operations, the result-written-back equalities, the two memory access slices,
the syscall receive, and booleanity of `is_real`. -/
def bn254MulAddEval (locRow nextRow : Bn254MulAddCols) (firstRowSel transitionSel : F) :
    List Emit :=
  [Emit.assertZero (firstRowSel * locRow.nonce),
   Emit.assertZero (transitionSel * (locRow.nonce + 1 - nextRow.nonce)),
   Emit.fieldOpEval (List.ofFn (limbsFromReadAccess locRow.a_memory))
     (List.ofFn (limbsFromReadAccess locRow.b_memory))
     (List.ofFn locRow.a_mul_b.result) .Mul locRow.is_real,
   Emit.fieldOpEval (List.ofFn (prevLimbsOfWriteAccess locRow.x_memory))
     (List.ofFn locRow.a_mul_b.result)
     (List.ofFn locRow.add_eval.result) .Add locRow.is_real] ++
  (List.ofFn fun k : Fin 32 =>
    Emit.assertZero
      (locRow.is_real * (locRow.add_eval.result k - valueLimbsOfWriteAccess locRow.x_memory k))) ++
  [Emit.memAccess locRow.shard (locRow.clk + 1) locRow.x_ptr
     (List.ofFn (valueLimbsOfWriteAccess locRow.x_memory)) locRow.is_real,
   Emit.memAccess locRow.shard locRow.clk locRow.y_ptr
     (List.ofFn (limbsFromReadAccess locRow.a_memory) ++
       List.ofFn (limbsFromReadAccess locRow.b_memory)) locRow.is_real,
   Emit.receiveSyscall
     [locRow.shard, locRow.clk, locRow.nonce, ((BN254_MULADD_SYSCALL_ID : ℕ) : F),
      locRow.x_ptr, locRow.y_ptr] locRow.is_real,
   Emit.assertZero (locRow.is_real * (locRow.is_real - 1))]

/-- `MemCopyChip::eval` for the 8-word instance: word-for-word equality of
source and destination values gated by `is_real`, the source access slice at
timestamp `clk`, the destination access slice at timestamp `clk + 1`, and the
syscall receive. -/
def memCopy32Eval (locRow : MemCopyCols) : List Emit :=
  (List.ofFn fun k : Fin 32 =>
    Emit.assertZero
      (locRow.is_real *
        (limbsFromReadAccess locRow.src_access k - valueLimbsOfWriteAccess locRow.dst_access k))) ++
  [Emit.memAccess locRow.shard locRow.clk locRow.src_ptr
     (List.ofFn (limbsFromReadAccess locRow.src_access)) locRow.is_real,
   Emit.memAccess locRow.shard (locRow.clk + 1) locRow.dst_ptr
     (List.ofFn (valueLimbsOfWriteAccess locRow.dst_access)) locRow.is_real,
   Emit.receiveSyscall
     [locRow.shard, locRow.clk, ((MEMCPY_32_SYSCALL_ID : ℕ) : F), locRow.src_ptr,
      locRow.dst_ptr] locRow.is_real]

/-- `Bn254ScalarMacChip::eval`: only booleanity of `is_real` and one syscall
receive — no constraint reads the arithmetic witnesses or the memory access
columns. -/
def bn254ScalarMacEval (locRow : Bn254ScalarMacCols) : List Emit :=
  [Emit.assertZero (locRow.is_real * (locRow.is_real - 1)),
   Emit.receiveSyscall
     [locRow.shard, locRow.clk, ((BN254_SCALAR_MAC_SYSCALL_ID : ℕ) : F), locRow.arg1_ptr,
      locRow.arg2_ptr] locRow.is_real]

/-- `sys_bn254_muladd` (guest entrypoint, `bigint.rs`): the caller's `x` and
`y` buffers are copied into the concatenated second syscall argument and the
caller's `z` buffer is copied into the result buffer the syscall mutates, so
the recorded precompile event carries accumulator operand `x := z` and factor
operands `a := x`, `b := y`. -/
def sysBn254MulAddEvent (shard clk result_ptr concat_ptr : ℕ) (x y z : Fin 8 → ℕ)
    (xrec : Fin 8 → MemoryWriteRecord) (arec brec : Fin 8 → MemoryReadRecord) :
    Bn254MulAddEvent :=
  { shard := shard
    clk := clk
    x_ptr := result_ptr
    x := z
    y_ptr := concat_ptr
    a := x
    b := y
    x_memory_records := xrec
    a_memory_records := arec
    b_memory_records := brec }

/-- The reduced value the `Bn254MulAdd` row pipeline computes: the output of
`add_eval.populate` fed with `x` and the output of `a_mul_b.populate`. -/
def bn254MulAddResultValue (e : Bn254MulAddEvent) : ℕ :=
  (FieldOpCols.populate (wordsToNat e.x)
    (FieldOpCols.populate (wordsToNat e.a) (wordsToNat e.b) .Mul).2 .Add).2

/-- Eight words holding the single small value `n` in word 0. -/
def smallWords (n : ℕ) : Fin 8 → ℕ := fun i => if i = 0 then n else 0

/-- Eight words holding `2^128` (word 4 set to 1). -/
def pow128Words : Fin 8 → ℕ := fun i => if (i : ℕ) = 4 then 1 else 0

/-- A zeroed journal write record, for concrete test events. -/
def zeroWriteRecord : MemoryWriteRecord := ⟨0, 0, 0, 0⟩

/-- A zeroed journal read record, for concrete test events. -/
def zeroReadRecord : MemoryReadRecord := ⟨0, 0, 0⟩

/-- Scenario A's event: the guest calls `sys_bn254_muladd` with `x = 2`,
`y = 3`, `z = 4`, so the recorded event has factors `a = 2`, `b = 3` and
accumulator `x = 4`. -/
def scenarioAEvent : Bn254MulAddEvent :=
  sysBn254MulAddEvent 1 1 100 200 (smallWords 2) (smallWords 3) (smallWords 4)
    (fun _ => zeroWriteRecord) (fun _ => zeroReadRecord) (fun _ => zeroReadRecord)

/-- A shard record holding exactly Scenario A's event. -/
def scenarioARecord : ExecutionRecord := ⟨[scenarioAEvent], [], [], [], none⟩

/-- An event whose factors are both `2^128`, so the product is `2^256`:
reduction modulo `2^256` would yield `0` while the chip reduces modulo the
Bn254 scalar prime. -/
def mulAddOverflowEvent : Bn254MulAddEvent :=
  { shard := 0
    clk := 0
    x_ptr := 0
    x := smallWords 0
    y_ptr := 0
    a := pow128Words
    b := pow128Words
    x_memory_records := fun _ => zeroWriteRecord
    a_memory_records := fun _ => zeroReadRecord
    b_memory_records := fun _ => zeroReadRecord }

/-- The fuel-driven ceil-log recursion is correct whenever the fuel covers the
argument. -/
theorem log2CeilAux_le (fuel : ℕ) : ∀ n : ℕ, n ≤ fuel → n ≤ 2 ^ log2CeilAux fuel n := by
  induction fuel with
  | zero =>
    intro n h
    have h0 : log2CeilAux 0 n = 0 := rfl
    rw [h0]
    omega
  | succ fuel ih =>
    intro n h
    by_cases h1 : n ≤ 1
    · have h0 : log2CeilAux (fuel + 1) n = 0 := by simp [log2CeilAux, h1]
      rw [h0]
      omega
    · have hrec : (n + 1) / 2 ≤ fuel := by omega
      have hih := ih ((n + 1) / 2) hrec
      have hstep : log2CeilAux (fuel + 1) n = log2CeilAux fuel ((n + 1) / 2) + 1 := by
        simp [log2CeilAux, h1]
      rw [hstep, pow_succ]
      omega

/-- `n ≤ 2 ^ log2Ceil n`. -/
theorem le_two_pow_log2Ceil (n : ℕ) : n ≤ 2 ^ log2Ceil n :=
  log2CeilAux_le n n le_rfl

/-- Destructing a successful `padRowsFixed`: the result is the genuine rows
followed by dummy rows up to the target height, which the rows fit under. -/
theorem padRowsFixed_some {R : Type} {rows : List R} {dummy : R} {f : Option ℕ}
    {l : List R} (h : padRowsFixed rows dummy f = some l) :
    rows.length ≤ nextPowerOfTwoModel rows.length f ∧
      l = rows ++ List.replicate (nextPowerOfTwoModel rows.length f - rows.length) dummy := by
  unfold padRowsFixed at h
  by_cases hle : rows.length ≤ nextPowerOfTwoModel rows.length f
  · exact ⟨hle, by simpa [hle] using h.symm⟩
  · simp [hle] at h

/-- `writeNonces` keeps the row count. -/
theorem writeNonces_length (rows : List Bn254MulAddCols) (s : ℕ) :
    (writeNonces rows s).length = rows.length := by
  induction rows generalizing s with
  | nil => rfl
  | cons r rs ih => simp [writeNonces, ih]

/-- Row `i` after the nonce post-pass is row `i` before it, with
`nonce = start + i`. -/
theorem writeNonces_getElem? (rows : List Bn254MulAddCols) (s i : ℕ) :
    (writeNonces rows s)[i]? =
      rows[i]?.map fun r => { r with nonce := ((s + i : ℕ) : F) } := by
  induction rows generalizing s i with
  | nil => simp [writeNonces]
  | cons r rs ih =>
    cases i with
    | zero => simp [writeNonces]
    | succ j =>
      have hs : s + 1 + j = s + (j + 1) := by omega
      simp only [writeNonces, List.getElem?_cons_succ, ih (s + 1) j, hs]

/-- Claim C1: for a multiply-accumulate precompile event with operands
`a = 2`, `b = 3`, `c = 4` (each a 32-byte little-endian integer), the result
the `Bn254MulAdd` chip computes and asserts written to the destination equals
`(2*3)+4 = 10` encoded little-endian with all higher bytes zero: the
`add_eval` result column of that row is `10` in limb form, both in the
materialized event row and in row 0 of the generated trace. -/
theorem bn254MulAdd_scenarioA_result_is_ten :
    (∀ i : Fin 32,
      (bn254MulAddEventRow scenarioAEvent).add_eval.result i = if i = 0 then (10 : F) else 0)
    ∧ bn254MulAddGenerateTrace scenarioARecord =
        some [{ bn254MulAddEventRow scenarioAEvent with nonce := ((0 : ℕ) : F) }] := by
  constructor
  · decide
  · rfl

/-- Claim C10: the value the `Bn254MulAdd` chip computes (and, via the
gated write-back equalities of its constraint evaluator, asserts written to
the `x` destination memory) is `(x + a*b) mod p` for the Bn254 scalar prime
`p` — and not `mod 2^256`, as the `2^128 * 2^128` event witnesses. -/
theorem bn254MulAdd_result_is_mod_bn254_prime :
    (∀ e : Bn254MulAddEvent,
      bn254MulAddResultValue e =
          (wordsToNat e.x + wordsToNat e.a * wordsToNat e.b) % bn254ScalarModulus
        ∧ ∀ i : Fin 32,
            (bn254MulAddEventRow e).add_eval.result i =
              ((natByte (bn254MulAddResultValue e) (i : ℕ) : ℕ) : F))
    ∧ (∀ (locRow nextRow : Bn254MulAddCols) (fs ts : F),
        locRow.is_real = 1 → constraintsHold (bn254MulAddEval locRow nextRow fs ts) →
        ∀ k : Fin 32, valueLimbsOfWriteAccess locRow.x_memory k = locRow.add_eval.result k)
    ∧ bn254MulAddResultValue mulAddOverflowEvent ≠
        (wordsToNat mulAddOverflowEvent.x +
          wordsToNat mulAddOverflowEvent.a * wordsToNat mulAddOverflowEvent.b) % 2 ^ 256 := by
  refine ⟨fun e => ⟨?_, fun i => rfl⟩, ?_, by decide⟩
  · show (wordsToNat e.x + (wordsToNat e.a * wordsToNat e.b) % bn254ScalarModulus) %
        bn254ScalarModulus = _
    simp [Nat.add_mod]
  · intro locRow nextRow fs ts hreal hold k
    have hmem : Emit.assertZero
        (locRow.is_real *
          (locRow.add_eval.result k - valueLimbsOfWriteAccess locRow.x_memory k)) ∈
          bn254MulAddEval locRow nextRow fs ts := by
      unfold bn254MulAddEval
      refine List.mem_append_left _ (List.mem_append_right _ ?_)
      exact (List.mem_ofFn _ _).mpr ⟨k, rfl⟩
    have hz := hold _ hmem
    have hz' : locRow.add_eval.result k - valueLimbsOfWriteAccess locRow.x_memory k = 0 := by
      simpa [emitHolds, hreal] using hz
    exact (sub_eq_zero.mp hz').symm

/-- Witness for claim C10: the mod-p identity at Scenario A's event, and the
gated write-back equality at a real all-zero row whose constraints hold. -/
theorem bn254MulAdd_result_is_mod_bn254_prime_witness :
    bn254MulAddResultValue scenarioAEvent =
        (wordsToNat scenarioAEvent.x + wordsToNat scenarioAEvent.a * wordsToNat scenarioAEvent.b) %
          bn254ScalarModulus
    ∧ ({ bn254MulAddPadRow with is_real := 1 } : Bn254MulAddCols).is_real = 1
    ∧ constraintsHold
        (bn254MulAddEval { bn254MulAddPadRow with is_real := 1 } bn254MulAddPadRow 0 0)
    ∧ valueLimbsOfWriteAccess
          ({ bn254MulAddPadRow with is_real := 1 } : Bn254MulAddCols).x_memory 0 =
        ({ bn254MulAddPadRow with is_real := 1 } : Bn254MulAddCols).add_eval.result 0 := by
  refine ⟨(bn254MulAdd_result_is_mod_bn254_prime.1 scenarioAEvent).1, rfl, by decide, ?_⟩
  exact bn254MulAdd_result_is_mod_bn254_prime.2.1 { bn254MulAddPadRow with is_real := 1 }
    bn254MulAddPadRow 0 0 rfl (by decide) 0

/-- Indexing past the genuine rows of a padded trace hits the dummy row. -/
theorem getElem?_append_replicate {R : Type} (l : List R) (m i : ℕ) (a : R)
    (h : l.length ≤ i) (h2 : i - l.length < m) :
    (l ++ List.replicate m a)[i]? = some a := by
  rw [List.getElem?_append_right h]
  simp [List.getElem?_replicate, h2]

/-- The padded height is always a power of two. -/
theorem nextPowerOfTwoModel_pow (n : ℕ) (f : Option ℕ) :
    ∃ k, nextPowerOfTwoModel n f = 2 ^ k := by
  cases f with
  | none => exact ⟨log2Ceil n, rfl⟩
  | some l => exact ⟨l, rfl⟩

/-- The genuine Poseidon rows of a shard: `FULL_ROUNDS + PARTIAL_ROUNDS` per
event. -/
theorem poseidonRealRows_length (es : List PoseidonEvent) :
    ((es.map poseidonEventRows).flatten).length =
      (FULL_ROUNDS + PARTIAL_ROUNDS) * es.length := by
  induction es with
  | nil => simp
  | cons e es ih =>
    simp only [List.map_cons, List.flatten_cons, List.length_append, ih]
    have : (poseidonEventRows e).length = FULL_ROUNDS + PARTIAL_ROUNDS := by
      simp [poseidonEventRows]
    rw [this, List.length_cons]
    ring

/-- The Poseidon padding loop never drops rows. -/
theorem le_poseidonPaddedLen (n : ℕ) : n ≤ poseidonPaddedLen n :=
  le_trans (le_max_left n 1) (le_two_pow_log2Ceil (max n 1))

/-- The record of a shard with no precompile events and no shape hint. -/
def emptyRecord : ExecutionRecord := ⟨[], [], [], [], none⟩

/-- The `Bn254MulAdd` trace of the empty shard: a single dummy row. -/
def mulAddEmptyTrace : List Bn254MulAddCols :=
  [{ bn254MulAddPadRow with nonce := ((0 : ℕ) : F) }]

/-- The `Bn254ScalarMac` trace of the empty shard. -/
def macEmptyTrace : List Bn254ScalarMacCols := [bn254ScalarMacPadRow]

/-- The memory-copy trace of the empty shard. -/
def memCopyEmptyTrace : List MemCopyCols := [memCopyPadRow]

/-- Claim C2: for every chip and shard, the returned trace height is a power
of two, and every padding row appended after the genuine event rows is the
chip's canonical dummy row — `is_real = 0` with the arithmetic witness
populated for the zero-operand pair, whose reduction quotient is `q = 0`
(the zero-operand `populate` computes `0 / p = 0`, never dividing by an
operand). -/
theorem trace_padding_pow2_and_null_rows :
    (∀ (r : ExecutionRecord) (t : List Bn254MulAddCols),
        bn254MulAddGenerateTrace r = some t →
        (∃ k, t.length = 2 ^ k) ∧
        ∀ i : ℕ, r.bn254MulAddEvents.length ≤ i → i < t.length →
          t[i]? = some { bn254MulAddPadRow with nonce := ((i : ℕ) : F) })
    ∧ (∀ (r : ExecutionRecord) (t : List Bn254ScalarMacCols),
        bn254ScalarMacGenerateTrace r = some t →
        (∃ k, t.length = 2 ^ k) ∧
        ∀ i : ℕ, r.bn254ScalarMacEvents.length ≤ i → i < t.length →
          t[i]? = some bn254ScalarMacPadRow)
    ∧ (∀ (r : ExecutionRecord) (t : List MemCopyCols),
        memCopy32GenerateTrace r = some t →
        (∃ k, t.length = 2 ^ k) ∧
        ∀ i : ℕ, r.memCopy32Events.length ≤ i → i < t.length → t[i]? = some memCopyPadRow)
    ∧ (∀ r : ExecutionRecord,
        (∃ k, (poseidonGenerateTrace r).length = 2 ^ k) ∧
        ∀ i : ℕ, (FULL_ROUNDS + PARTIAL_ROUNDS) * r.poseidonEvents.length ≤ i →
          i < (poseidonGenerateTrace r).length →
          (poseidonGenerateTrace r)[i]? = some poseidonEmptyRow)
    ∧ bn254MulAddPadRow.is_real = 0
    ∧ bn254MulAddPadRow.a_mul_b = (FieldOpCols.populate 0 0 .Mul).1
    ∧ bn254MulAddPadRow.a_mul_b.q = 0
    ∧ bn254MulAddPadRow.add_eval = (FieldOpCols.populate 0 0 .Add).1
    ∧ bn254MulAddPadRow.add_eval.q = 0
    ∧ bn254ScalarMacPadRow.is_real = 0
    ∧ bn254ScalarMacPadRow.mul_eval = (FieldOpCols.populate 0 0 .Mul).1
    ∧ bn254ScalarMacPadRow.mul_eval.q = 0
    ∧ bn254ScalarMacPadRow.add_eval = (FieldOpCols.populate 0 0 .Add).1
    ∧ bn254ScalarMacPadRow.add_eval.q = 0
    ∧ memCopyPadRow.is_real = 0
    ∧ poseidonEmptyRow.is_real = 0 := by
  refine ⟨?_, ?_, ?_, ?_, rfl, rfl, rfl, rfl, rfl, rfl, rfl, rfl, rfl, rfl, rfl, rfl⟩
  · intro r t h
    obtain ⟨padded, hpad, hwr⟩ := Option.map_eq_some'.mp h
    obtain ⟨hle, hpadded⟩ := padRowsFixed_some hpad
    subst hwr
    subst hpadded
    constructor
    · obtain ⟨k, hk⟩ :=
        nextPowerOfTwoModel_pow (r.bn254MulAddEvents.map bn254MulAddEventRow).length
          (r.fixedLog2Rows "Bn254MulAdd")
      refine ⟨k, ?_⟩
      rw [writeNonces_length]
      simp only [List.length_append, List.length_replicate]
      omega
    · intro i hi hlen
      rw [writeNonces_length] at hlen
      simp only [List.length_append, List.length_replicate, List.length_map] at hlen hle
      rw [writeNonces_getElem?]
      rw [getElem?_append_replicate _ _ _ _ (by simp only [List.length_map]; omega)
        (by simp only [List.length_map]; omega)]
      simp
  · intro r t h
    obtain ⟨hle, hpadded⟩ := padRowsFixed_some h
    subst hpadded
    constructor
    · obtain ⟨k, hk⟩ :=
        nextPowerOfTwoModel_pow (r.bn254ScalarMacEvents.map bn254ScalarMacEventRow).length
          (r.fixedLog2Rows "Bn254ScalarMac")
      refine ⟨k, ?_⟩
      simp only [List.length_append, List.length_replicate]
      omega
    · intro i hi hlen
      simp only [List.length_append, List.length_replicate, List.length_map] at hlen hle
      exact getElem?_append_replicate _ _ _ _ (by simp only [List.length_map]; omega)
        (by simp only [List.length_map]; omega)
  · intro r t h
    obtain ⟨hle, hpadded⟩ := padRowsFixed_some h
    subst hpadded
    constructor
    · obtain ⟨k, hk⟩ :=
        nextPowerOfTwoModel_pow (r.memCopy32Events.map memCopyEventRow).length
          (r.fixedLog2Rows "MemCopy8Chip")
      refine ⟨k, ?_⟩
      simp only [List.length_append, List.length_replicate]
      omega
    · intro i hi hlen
      simp only [List.length_append, List.length_replicate, List.length_map] at hlen hle
      exact getElem?_append_replicate _ _ _ _ (by simp only [List.length_map]; omega)
        (by simp only [List.length_map]; omega)
  · intro r
    have hlen := poseidonRealRows_length r.poseidonEvents
    have hle := le_poseidonPaddedLen ((r.poseidonEvents.map poseidonEventRows).flatten).length
    constructor
    · refine ⟨log2Ceil (max ((r.poseidonEvents.map poseidonEventRows).flatten).length 1), ?_⟩
      unfold poseidonGenerateTrace
      simp only [List.length_append, List.length_replicate]
      unfold poseidonPaddedLen at hle ⊢
      omega
    · intro i hi hilen
      unfold poseidonGenerateTrace at hilen ⊢
      simp only [List.length_append, List.length_replicate] at hilen
      refine getElem?_append_replicate _ _ _ _ ?_ ?_
      · omega
      · omega

/-- Witness for claim C2: each of the four universal parts applied to the
empty shard at padding row 0. -/
theorem trace_padding_pow2_and_null_rows_witness :
    bn254MulAddGenerateTrace emptyRecord = some mulAddEmptyTrace
    ∧ (∃ k, mulAddEmptyTrace.length = 2 ^ k)
    ∧ mulAddEmptyTrace[0]? = some { bn254MulAddPadRow with nonce := ((0 : ℕ) : F) }
    ∧ bn254ScalarMacGenerateTrace emptyRecord = some macEmptyTrace
    ∧ macEmptyTrace[0]? = some bn254ScalarMacPadRow
    ∧ memCopy32GenerateTrace emptyRecord = some memCopyEmptyTrace
    ∧ memCopyEmptyTrace[0]? = some memCopyPadRow
    ∧ (∃ k, (poseidonGenerateTrace emptyRecord).length = 2 ^ k)
    ∧ (poseidonGenerateTrace emptyRecord)[0]? = some poseidonEmptyRow := by
  have h := trace_padding_pow2_and_null_rows
  exact ⟨rfl, (h.1 emptyRecord mulAddEmptyTrace rfl).1,
    (h.1 emptyRecord mulAddEmptyTrace rfl).2 0 (by decide) (by decide),
    rfl, (h.2.1 emptyRecord macEmptyTrace rfl).2 0 (by decide) (by decide),
    rfl, (h.2.2.1 emptyRecord memCopyEmptyTrace rfl).2 0 (by decide) (by decide),
    (h.2.2.2.1 emptyRecord).1,
    (h.2.2.2.1 emptyRecord).2 0 (by decide) (by decide)⟩

/-- A Poseidon event with all-zero input words, for concrete evaluation. -/
def poseidonZeroEvent : PoseidonEvent := ⟨0, 0, fun _ => 0⟩

/-- A shard holding exactly one Poseidon event. -/
def poseidonTestRecord : ExecutionRecord := ⟨[], [], [], [poseidonZeroEvent], none⟩

/-- A Poseidon event with input words `(1, 2, 3)`. -/
def poseidonStateTestEvent : PoseidonEvent := ⟨0, 0, fun i => ((i : ℕ) : F) + 1⟩

/-- Every row of every Poseidon trace carries `nonce = 0`: neither
`populate_trace_row` nor the padding writes the nonce column, and the
`MachineAir` `generate_trace` in `mod.rs` has no nonce post-pass. -/
theorem poseidon_trace_nonce_zero (r : ExecutionRecord) :
    ∀ row ∈ poseidonGenerateTrace r, row.nonce = 0 := by
  intro row hrow
  unfold poseidonGenerateTrace at hrow
  rcases List.mem_append.mp hrow with h | h
  · obtain ⟨block, hb, hrow'⟩ := List.mem_flatten.mp h
    obtain ⟨e, _, rfl⟩ := List.mem_map.mp hb
    obtain ⟨round, _, rfl⟩ := List.mem_map.mp hrow'
    rfl
  · rw [List.eq_of_mem_replicate h]
    rfl

/-- Counterexample to claim C3: the Poseidon chip's `MachineAir`
`generate_trace` never writes the nonce column, so in row 1 of the trace of a
single-event shard the nonce is `0`, not the row index `1`. -/
theorem poseidon_nonce_is_not_row_index :
    2 ≤ (poseidonGenerateTrace poseidonTestRecord).length
    ∧ (poseidonGenerateTrace poseidonTestRecord)[1]?.map PoseidonCols.nonce = some 0
    ∧ ((0 : F) ≠ ((1 : ℕ) : F)) := by
  refine ⟨by decide, ?_, by decide⟩
  rfl

/-- Claim C3 amended: only the chips whose `generate_trace` runs the nonce
post-pass get `nonce = i` in row `i` (`Bn254MulAdd` here); the Poseidon
`MachineAir` trace leaves its nonce column `0` in every row, and the
memory-copy and `Bn254ScalarMac` chips have no nonce column at all. -/
theorem nonce_column_amended :
    (∀ (r : ExecutionRecord) (t : List Bn254MulAddCols),
        bn254MulAddGenerateTrace r = some t →
        ∀ i : ℕ, i < t.length → t[i]?.map Bn254MulAddCols.nonce = some ((i : ℕ) : F))
    ∧ (∀ r : ExecutionRecord, ∀ i : ℕ, i < (poseidonGenerateTrace r).length →
        (poseidonGenerateTrace r)[i]?.map PoseidonCols.nonce = some 0) := by
  constructor
  · intro r t h i hi
    obtain ⟨padded, hpad, hwr⟩ := Option.map_eq_some'.mp h
    subst hwr
    rw [writeNonces_length] at hi
    rw [writeNonces_getElem?, List.getElem?_eq_getElem hi]
    simp
  · intro r i hi
    rw [List.getElem?_eq_getElem hi]
    simp [poseidon_trace_nonce_zero r _ (List.getElem_mem hi)]

/-- Witness for the amended claim C3: Scenario A's one-row trace has
`nonce = 0` in row 0, as does the Poseidon test trace. -/
theorem nonce_column_amended_witness :
    bn254MulAddGenerateTrace scenarioARecord =
        some [{ bn254MulAddEventRow scenarioAEvent with nonce := ((0 : ℕ) : F) }]
    ∧ [{ bn254MulAddEventRow scenarioAEvent with nonce := ((0 : ℕ) : F) }][0]?.map
        Bn254MulAddCols.nonce = some ((0 : ℕ) : F)
    ∧ 0 < (poseidonGenerateTrace poseidonTestRecord).length
    ∧ (poseidonGenerateTrace poseidonTestRecord)[0]?.map PoseidonCols.nonce = some 0 := by
  refine ⟨rfl, ?_, by decide, ?_⟩
  · exact nonce_column_amended.1 scenarioARecord _ rfl 0 (by decide)
  · exact nonce_column_amended.2 poseidonTestRecord 0 (by decide)

/-- Claim C5: each Poseidon event yields exactly
`FULL_ROUNDS + PARTIAL_ROUNDS = 65` real rows; row 0 is a full round with
`round_ctr = 0`, and every row whose round index lies in the partial range
`[FULL_ROUNDS/2, FULL_ROUNDS/2 + PARTIAL_ROUNDS)` has `is_full_round = 0`. -/
theorem poseidon_event_row_structure :
    ∀ e : PoseidonEvent,
      (poseidonEventRows e).length = FULL_ROUNDS + PARTIAL_ROUNDS
      ∧ FULL_ROUNDS + PARTIAL_ROUNDS = 65
      ∧ (∀ row ∈ poseidonEventRows e, row.is_real = 1)
      ∧ (poseidonEventRows e)[0]?.map PoseidonCols.is_full_round = some 1
      ∧ (poseidonEventRows e)[0]?.map PoseidonCols.round_ctr = some 0
      ∧ ∀ round : ℕ, FULL_ROUNDS / 2 ≤ round → round < FULL_ROUNDS / 2 + PARTIAL_ROUNDS →
          (poseidonEventRows e)[round]?.map PoseidonCols.is_full_round = some 0 := by
  intro e
  refine ⟨by simp [poseidonEventRows], rfl, ?_, rfl, rfl, ?_⟩
  · intro row hrow
    obtain ⟨round, _, rfl⟩ := List.mem_map.mp hrow
    rfl
  · intro round h1 h2
    have hround : round < FULL_ROUNDS + PARTIAL_ROUNDS := by
      simp only [FULL_ROUNDS, PARTIAL_ROUNDS] at h1 h2 ⊢
      omega
    have hff : poseidonIsFullRound round = false := by
      simp only [FULL_ROUNDS, PARTIAL_ROUNDS] at h1 h2
      simp only [poseidonIsFullRound, FULL_ROUNDS, PARTIAL_ROUNDS, Bool.or_eq_false_iff,
        decide_eq_false_iff_not]
      omega
    unfold poseidonEventRows
    rw [List.getElem?_map]
    simp [List.getElem?_range, hround, populateTraceRow, hff]

/-- Witness for claim C5: the partial-range conclusion at round 5 of the
zero-input event. -/
theorem poseidon_event_row_structure_witness :
    FULL_ROUNDS / 2 ≤ 5 ∧ 5 < FULL_ROUNDS / 2 + PARTIAL_ROUNDS
    ∧ (poseidonEventRows poseidonZeroEvent)[5]?.map PoseidonCols.is_full_round = some 0 := by
  refine ⟨by decide, by decide, ?_⟩
  exact (poseidon_event_row_structure poseidonZeroEvent).2.2.2.2.2 5 (by decide) (by decide)

/-- Claim C9: the `MachineAir` Poseidon trace generator initializes the
working state from only the first `RATE = 2` input words and never updates it
between rounds, so all 65 rows of one event carry identical `state` columns —
and consequently row `r`'s `next_state` does not in general equal row
`r+1`'s `state`, as the `(1,2,3)` event witnesses at rows 0 and 1. -/
theorem poseidon_state_never_updated :
    (∀ e : PoseidonEvent, ∀ i : ℕ, i < (poseidonEventRows e).length →
        (poseidonEventRows e)[i]?.map PoseidonCols.state = some (poseidonInitState e))
    ∧ (∀ e : PoseidonEvent, poseidonInitState e 2 = 0)
    ∧ (∀ e : PoseidonEvent, ∀ j : Fin 3, (j : ℕ) < RATE → poseidonInitState e j = e.input j)
    ∧ (poseidonEventRows poseidonStateTestEvent)[0]?.map PoseidonCols.next_state ≠
        (poseidonEventRows poseidonStateTestEvent)[1]?.map PoseidonCols.state := by
  refine ⟨?_, fun e => rfl, ?_, by decide⟩
  · intro e i hi
    unfold poseidonEventRows at hi ⊢
    simp only [List.length_map, List.length_range] at hi
    rw [List.getElem?_map]
    simp only [List.getElem?_range, hi, if_true]
    rfl
  · intro e j hj
    simp [poseidonInitState, hj]

/-- Witness for claim C9: the identical-state conclusion at row 7 of the
`(1,2,3)` event, and the first-two-words initialization at word 1. -/
theorem poseidon_state_never_updated_witness :
    7 < (poseidonEventRows poseidonStateTestEvent).length
    ∧ (poseidonEventRows poseidonStateTestEvent)[7]?.map PoseidonCols.state =
        some (poseidonInitState poseidonStateTestEvent)
    ∧ ((1 : ℕ) : ℕ) < RATE
    ∧ poseidonInitState poseidonStateTestEvent 1 = poseidonStateTestEvent.input 1 := by
  refine ⟨by decide, ?_, by decide, ?_⟩
  · exact poseidon_state_never_updated.1 poseidonStateTestEvent 7 (by decide)
  · exact poseidon_state_never_updated.2.2.1 poseidonStateTestEvent 1 (by decide)

/-- Claim C4: on every row, the memory-copy-32 constraint evaluator evaluates
the source access slice at timestamp `clk` and the destination access slice
at timestamp `clk + 1`, and on real rows its satisfied constraints force the
words written to the destination to equal the words read from the source. -/
theorem memCopy_eval_copy_and_timestamps :
    ∀ locRow : MemCopyCols,
      Emit.memAccess locRow.shard locRow.clk locRow.src_ptr
          (List.ofFn (limbsFromReadAccess locRow.src_access)) locRow.is_real ∈
          memCopy32Eval locRow
      ∧ Emit.memAccess locRow.shard (locRow.clk + 1) locRow.dst_ptr
          (List.ofFn (valueLimbsOfWriteAccess locRow.dst_access)) locRow.is_real ∈
          memCopy32Eval locRow
      ∧ (locRow.is_real = 1 → constraintsHold (memCopy32Eval locRow) →
          ∀ k : Fin 32,
            valueLimbsOfWriteAccess locRow.dst_access k = limbsFromReadAccess locRow.src_access k) := by
  intro locRow
  refine ⟨?_, ?_, ?_⟩
  · unfold memCopy32Eval
    exact List.mem_append_right _ (by simp)
  · unfold memCopy32Eval
    exact List.mem_append_right _ (by simp)
  · intro hreal hold k
    have hmem : Emit.assertZero
        (locRow.is_real *
          (limbsFromReadAccess locRow.src_access k - valueLimbsOfWriteAccess locRow.dst_access k)) ∈
          memCopy32Eval locRow := by
      unfold memCopy32Eval
      exact List.mem_append_left _ ((List.mem_ofFn _ _).mpr ⟨k, rfl⟩)
    have hz : limbsFromReadAccess locRow.src_access k -
        valueLimbsOfWriteAccess locRow.dst_access k = 0 := by
      simpa [emitHolds, hreal] using hold _ hmem
    exact (sub_eq_zero.mp hz).symm

/-- Witness for claim C4: the conclusions at a real all-zero row (source and
destination both zero), whose constraints hold. -/
theorem memCopy_eval_copy_and_timestamps_witness :
    ({ memCopyPadRow with is_real := 1 } : MemCopyCols).is_real = 1
    ∧ constraintsHold (memCopy32Eval { memCopyPadRow with is_real := 1 })
    ∧ valueLimbsOfWriteAccess ({ memCopyPadRow with is_real := 1 } : MemCopyCols).dst_access 0 =
        limbsFromReadAccess ({ memCopyPadRow with is_real := 1 } : MemCopyCols).src_access 0 := by
  refine ⟨rfl, by decide, ?_⟩
  exact (memCopy_eval_copy_and_timestamps { memCopyPadRow with is_real := 1 }).2.2 rfl
    (by decide) 0

/-- A shard record with no events whose shape hint nevertheless declares the
`Bn254MulAdd` chip. -/
def shapeOnlyRecord : ExecutionRecord :=
  ⟨[], [], [], [], some ⟨["Bn254MulAdd"], []⟩⟩

/-- Counterexample to claim C6: when the shard carries a shape hint,
`Bn254MulAdd::included` defers to the shape and ignores the events, so a
shard with no `BN254_MULADD` event at all still reports `included = true`. -/
theorem included_not_iff_events :
    bn254MulAddIncluded shapeOnlyRecord = true
    ∧ shapeOnlyRecord.bn254MulAddEvents = [] := by
  exact ⟨by decide, rfl⟩

/-- Claim C6 amended: the memory-copy, `Bn254ScalarMac` and Poseidon chips
report inclusion exactly when the shard has an event of their kind, and so
does `Bn254MulAdd` when the shard has no shape hint; with a shape hint
present, `Bn254MulAdd::included` is the shape's verdict, independent of the
events. -/
theorem included_iff_events_amended :
    (∀ r : ExecutionRecord, r.shape = none →
        (bn254MulAddIncluded r = true ↔ r.bn254MulAddEvents ≠ []))
    ∧ (∀ (r : ExecutionRecord) (s : CoreShape), r.shape = some s →
        bn254MulAddIncluded r = s.isIncluded "Bn254MulAdd")
    ∧ (∀ r : ExecutionRecord, memCopy32Included r = true ↔ r.memCopy32Events ≠ [])
    ∧ (∀ r : ExecutionRecord, bn254ScalarMacIncluded r = true ↔ r.bn254ScalarMacEvents ≠ [])
    ∧ (∀ r : ExecutionRecord, poseidonIncluded r = true ↔ r.poseidonEvents ≠ []) := by
  refine ⟨?_, ?_, ?_, ?_, ?_⟩
  · intro r h
    unfold bn254MulAddIncluded
    rw [h]
    simp [List.isEmpty_iff]
  · intro r s h
    unfold bn254MulAddIncluded
    rw [h]
  · intro r
    unfold memCopy32Included
    simp [List.isEmpty_iff]
  · intro r
    unfold bn254ScalarMacIncluded
    simp [List.isEmpty_iff]
  · intro r
    unfold poseidonIncluded
    simp [List.isEmpty_iff]

/-- Witness for the amended claim C6: the empty shard (no shape) is excluded
everywhere, and the shape-bearing shard's verdict is the shape's. -/
theorem included_iff_events_amended_witness :
    emptyRecord.shape = none
    ∧ (bn254MulAddIncluded emptyRecord = true ↔ emptyRecord.bn254MulAddEvents ≠ [])
    ∧ shapeOnlyRecord.shape = some ⟨["Bn254MulAdd"], []⟩
    ∧ bn254MulAddIncluded shapeOnlyRecord =
        CoreShape.isIncluded ⟨["Bn254MulAdd"], []⟩ "Bn254MulAdd"
    ∧ (memCopy32Included emptyRecord = true ↔ emptyRecord.memCopy32Events ≠ []) := by
  refine ⟨rfl, ?_, rfl, ?_, ?_⟩
  · exact included_iff_events_amended.1 emptyRecord rfl
  · exact included_iff_events_amended.2.1 shapeOnlyRecord ⟨["Bn254MulAdd"], []⟩ rfl
  · exact included_iff_events_amended.2.2.1 emptyRecord

/-- Claim C7: `Bn254MulAdd` trace generation is a pure function of the shard
record — equal records give identical traces — its genuine rows appear in
exactly event insertion order (row `i` is built from event `i`), and
re-evaluating the constraints on an unchanged row pair yields the same
verdict. -/
theorem mulAdd_trace_insertion_order_and_determinism :
    (∀ (r : ExecutionRecord) (t : List Bn254MulAddCols),
        bn254MulAddGenerateTrace r = some t →
        ∀ i : ℕ, i < r.bn254MulAddEvents.length →
          t[i]? = r.bn254MulAddEvents[i]?.map fun e =>
            { bn254MulAddEventRow e with nonce := ((i : ℕ) : F) })
    ∧ (∀ r₁ r₂ : ExecutionRecord, r₁ = r₂ →
        bn254MulAddGenerateTrace r₁ = bn254MulAddGenerateTrace r₂)
    ∧ (∀ (locRow nextRow : Bn254MulAddCols) (fs ts : F),
        constraintsHold (bn254MulAddEval locRow nextRow fs ts) ↔
          constraintsHold (bn254MulAddEval locRow nextRow fs ts)) := by
  refine ⟨?_, fun r₁ r₂ h => by rw [h], fun _ _ _ _ => Iff.rfl⟩
  intro r t h i hi
  obtain ⟨padded, hpad, hwr⟩ := Option.map_eq_some'.mp h
  obtain ⟨hle, hpadded⟩ := padRowsFixed_some hpad
  subst hwr
  subst hpadded
  rw [writeNonces_getElem?]
  have hlt : i < (List.map bn254MulAddEventRow r.bn254MulAddEvents).length := by
    simpa using hi
  rw [List.getElem?_append, if_pos hlt, List.getElem?_map]
  simp only [Option.map_map, Nat.zero_add]
  rfl

/-- Witness for claim C7: Scenario A's trace has its single event's row at
index 0. -/
theorem mulAdd_trace_insertion_order_witness :
    bn254MulAddGenerateTrace scenarioARecord =
        some [{ bn254MulAddEventRow scenarioAEvent with nonce := ((0 : ℕ) : F) }]
    ∧ 0 < scenarioARecord.bn254MulAddEvents.length
    ∧ [{ bn254MulAddEventRow scenarioAEvent with nonce := ((0 : ℕ) : F) }][0]? =
        scenarioARecord.bn254MulAddEvents[0]?.map fun e =>
          { bn254MulAddEventRow e with nonce := ((0 : ℕ) : F) } := by
  refine ⟨rfl, by decide, ?_⟩
  exact mulAdd_trace_insertion_order_and_determinism.1 scenarioARecord _ rfl 0 (by decide)

/-- Claim C8: the `Bn254ScalarMac` constraint evaluator reads only `is_real`,
`shard`, `clk`, `arg1_ptr` and `arg2_ptr` — two rows agreeing there emit
exactly the same assertions, so both satisfy the chip's constraints or
neither does. -/
theorem mac_eval_ignores_witness_and_memory :
    ∀ r₁ r₂ : Bn254ScalarMacCols,
      r₁.is_real = r₂.is_real → r₁.shard = r₂.shard → r₁.clk = r₂.clk →
      r₁.arg1_ptr = r₂.arg1_ptr → r₁.arg2_ptr = r₂.arg2_ptr →
      bn254ScalarMacEval r₁ = bn254ScalarMacEval r₂
      ∧ (constraintsHold (bn254ScalarMacEval r₁) ↔ constraintsHold (bn254ScalarMacEval r₂)) := by
  intro r₁ r₂ h1 h2 h3 h4 h5
  have heq : bn254ScalarMacEval r₁ = bn254ScalarMacEval r₂ := by
    unfold bn254ScalarMacEval
    rw [h1, h2, h3, h4, h5]
  exact ⟨heq, by rw [heq]⟩

/-- Witness for claim C8: the dummy row and the dummy row with a scribbled
arithmetic witness and memory column emit identical constraint lists. -/
theorem mac_eval_ignores_witness_and_memory_witness :
    (bn254ScalarMacPadRow.is_real =
      ({ bn254ScalarMacPadRow with
          mul_eval := ⟨fun _ => 5, 7⟩
          a_access := fun _ => ⟨fun _ => 9⟩ } : Bn254ScalarMacCols).is_real)
    ∧ bn254ScalarMacEval bn254ScalarMacPadRow =
        bn254ScalarMacEval { bn254ScalarMacPadRow with
          mul_eval := ⟨fun _ => 5, 7⟩
          a_access := fun _ => ⟨fun _ => 9⟩ } := by
  refine ⟨rfl, ?_⟩
  exact (mac_eval_ignores_witness_and_memory bn254ScalarMacPadRow
    { bn254ScalarMacPadRow with
        mul_eval := ⟨fun _ => 5, 7⟩
        a_access := fun _ => ⟨fun _ => 9⟩ } rfl rfl rfl rfl rfl).1

end SP1
